import Mathlib

/-!
# Shallow embedding of the DbBufferPool buffer pool (bustub drafts)

Embeds, from the C++ sources:
* `src/bustub-master/src/buffer/lru_replacer.cpp`        → `LRUReplacer`
* `src/unnamed/part_000` (clock_replacer.cpp)            → `ClockReplacer`
* `src/bustub-master/src/buffer/buffer_pool_manager_instance.cpp`
                                                         → `BufferPoolManagerInstance`
* `src/bustub-master/src/buffer/parallel_buffer_pool_manager.cpp`
                                                         → `ParallelBufferPoolManager`

Conventions of the embedding:
* C++ in-place mutation becomes explicit state passing; each operation
  returns its result paired with the updated state.
* Latches (`latch_`, per-page `WLatch`) are mutual exclusion only; the claims
  are about sequential operation boundaries, so they are dropped as no-ops.
* `frame_id_t` is `Nat` (array index), `page_id_t` is `Int` with
  `INVALID_PAGE_ID = -1` as in bustub.
* Page data is modelled as a single `Nat` token (the claims never inspect
  byte-level structure); the `DiskManager` is a function `Int → Nat` plus a
  ghost trace of the `WritePage` calls issued, so that "the code wrote /
  did not write to disk" is directly observable.
-/

namespace DbBufferPool

/-! ## LRUReplacer (lru_replacer.cpp)

State: `std::deque<frame_id_t> frames`, head of the list = front of the deque. -/

structure LRUReplacer where
  frames : List Nat
deriving Repr, DecidableEq

namespace LRUReplacer

/-- Embeds `LRUReplacer::LRUReplacer(size_t)`: the constructor ignores `num_pages`. -/
def mkEmpty : LRUReplacer := ⟨[]⟩

/-- Embeds `LRUReplacer::Victim`: if the deque is empty return `false` (here `none`);
otherwise pop the front and return it. -/
def Victim (r : LRUReplacer) : Option Nat × LRUReplacer :=
  match r.frames with
  | [] => (none, r)
  | f :: rest => (some f, ⟨rest⟩)

/-- Embeds `LRUReplacer::Pin`: scan for the first occurrence of `frame_id` and erase
it; absent is a no-op.  `List.erase` erases exactly the first occurrence. -/
def Pin (r : LRUReplacer) (frame_id : Nat) : LRUReplacer :=
  ⟨r.frames.erase frame_id⟩

/-- Embeds `LRUReplacer::Unpin`: `std::find`, erase if found, then `push_back`. -/
def Unpin (r : LRUReplacer) (frame_id : Nat) : LRUReplacer :=
  ⟨r.frames.erase frame_id ++ [frame_id]⟩

/-- Embeds `LRUReplacer::Size`: number of tracked frames. -/
def Size (r : LRUReplacer) : Nat := r.frames.length

end LRUReplacer

/-! ## ClockReplacer (src/unnamed/part_000, clock_replacer.cpp)

State: two bitmaps `resident`, `clock` of length `num_pages` and the hand
`current_frame` (initialised to 0).  The C++ `while (true)` loop of `Victim`
is embedded with explicit fuel; `clockVictimSufficientFuel` below proves that
`2 * num_pages` iterations always suffice when a resident bit is set, so the
fuelled function agrees with the unbounded loop on every state the code can
reach. -/

structure ClockReplacer where
  resident : List Bool
  clock : List Bool
  current_frame : Nat
deriving Repr, DecidableEq

namespace ClockReplacer

/-- Embeds `ClockReplacer::ClockReplacer(size_t num_pages)`. -/
def mkNew (num_pages : Nat) : ClockReplacer :=
  ⟨List.replicate num_pages false, List.replicate num_pages false, 0⟩

/-- Embeds one advance of the hand: `current_frame = (current_frame + 1) % clock.size()`. -/
def advance (r : ClockReplacer) : ClockReplacer :=
  { r with current_frame := (r.current_frame + 1) % r.clock.length }

/-- Embeds the body of `ClockReplacer::Victim`'s `while (true)` loop, with fuel. -/
def victimLoop : Nat → ClockReplacer → Option (Nat × ClockReplacer)
  | 0, _ => none
  | fuel + 1, r =>
    if r.resident.getD r.current_frame false then
      if r.clock.getD r.current_frame false then
        victimLoop fuel (advance { r with clock := r.clock.set r.current_frame false })
      else
        some (r.current_frame, advance r)
    else
      victimLoop fuel (advance r)

/-- Embeds `ClockReplacer::Victim`: return `none` when no resident bit is set,
otherwise run the loop (fuel `2 * size` is proved sufficient below). -/
def Victim (r : ClockReplacer) : Option (Nat × ClockReplacer) :=
  if r.resident.any id then victimLoop (2 * r.clock.length) r else none

/-- Embeds `ClockReplacer::Pin`: `resident[frame_id] = 0`. -/
def Pin (r : ClockReplacer) (frame_id : Nat) : ClockReplacer :=
  { r with resident := r.resident.set frame_id false }

/-- Embeds `ClockReplacer::Unpin`: `resident[frame_id] = 1; clock[frame_id] = 1`. -/
def Unpin (r : ClockReplacer) (frame_id : Nat) : ClockReplacer :=
  { r with resident := r.resident.set frame_id true,
           clock := r.clock.set frame_id true }

/-- Embeds `ClockReplacer::Size`: popcount of `resident`. -/
def Size (r : ClockReplacer) : Nat := r.resident.count true

end ClockReplacer

/-! ## BufferPoolManagerInstance (buffer_pool_manager_instance.cpp)

There is no explicit page table in this draft: every lookup is a linear scan
of `pages_` comparing `GetPageId()` with the requested id (first match wins),
embedded as `findFrameIdx`. -/

/-- Embeds bustub's `INVALID_PAGE_ID` sentinel. -/
def INVALID_PAGE_ID : Int := -1

/-- Embeds one slot of the `Page` array: metadata plus the data token. -/
structure Page where
  page_id : Int := INVALID_PAGE_ID
  pin_count : Nat := 0
  is_dirty : Bool := false
  data : Nat := 0
deriving Repr, DecidableEq

instance : Inhabited Page := ⟨{}⟩

/-- Embeds the external `DiskManager`: current page contents, plus a ghost
trace of the `WritePage(page_id, data)` calls issued (most recent last). -/
structure DiskManager where
  disk : Int → Nat
  writes : List (Int × Nat)

/-- Embeds `DiskManager::WritePage` (synchronous). -/
def DiskManager.WritePage (dm : DiskManager) (page_id : Int) (d : Nat) : DiskManager :=
  ⟨fun q => if q = page_id then d else dm.disk q, dm.writes ++ [(page_id, d)]⟩

/-- Embeds `DiskManager::ReadPage` (synchronous, no state change). -/
def DiskManager.ReadPage (dm : DiskManager) (page_id : Int) : Nat := dm.disk page_id

/-- Embeds the state owned by `BufferPoolManagerInstance`.  `deallocated` is a
ghost trace of the `DeallocatePage` calls and `allocatedIds` of the page ids
returned by `AllocatePage` (the C++ bodies are identifier-level only). -/
structure BufferPoolManagerInstance where
  pool_size : Nat
  num_instances : Nat
  instance_index : Nat
  next_page_id : Int
  pages : List Page
  free_list : List Nat
  replacer : LRUReplacer
  dm : DiskManager
  deallocated : List Int := []
  allocatedIds : List Int := []

instance : Inhabited BufferPoolManagerInstance :=
  ⟨⟨0, 1, 0, 0, [], [], ⟨[]⟩, ⟨fun _ => 0, []⟩, [], []⟩⟩

namespace BufferPoolManagerInstance

/-- Embeds the constructor `BufferPoolManagerInstance(pool_size, num_instances,
instance_index, ...)`: `next_page_id_` seeded at `instance_index`, a fresh
`LRUReplacer`, and every frame initially on the free list. -/
def mkInstance (pool_size num_instances instance_index : Nat) (dm : DiskManager) :
    BufferPoolManagerInstance where
  pool_size := pool_size
  num_instances := num_instances
  instance_index := instance_index
  next_page_id := instance_index
  pages := List.replicate pool_size {}
  free_list := List.range pool_size
  replacer := LRUReplacer.mkEmpty
  dm := dm

/-- Embeds the scan `for (i = 0; i < pool_size_; i++) if (pages_[i].GetPageId()
== page_id)` used by Fetch/Delete/Unpin: index of the first matching frame. -/
def findFrameIdx : List Page → Int → Option Nat
  | [], _ => none
  | p :: rest, page_id =>
    if p.page_id = page_id then some 0
    else (findFrameIdx rest page_id).map (· + 1)

/-- Embeds `AllocatePage`: return `next_page_id_`, bump it by `num_instances_`
(the returned id is also recorded in the ghost trace `allocatedIds`). -/
def AllocatePage (st : BufferPoolManagerInstance) : Int × BufferPoolManagerInstance :=
  (st.next_page_id,
   { st with next_page_id := st.next_page_id + st.num_instances,
             allocatedIds := st.allocatedIds ++ [st.next_page_id] })

/-- Embeds `FlushPgImp`: scan for the page; if found, write back when dirty and
clear the dirty bit, return `true`; `false` when no frame holds `page_id`. -/
def flushPg (st : BufferPoolManagerInstance) (page_id : Int) :
    Bool × BufferPoolManagerInstance :=
  match findFrameIdx st.pages page_id with
  | none => (false, st)
  | some i =>
    let p := st.pages.getD i {}
    if p.is_dirty then
      (true, { st with pages := st.pages.set i ({ p with is_dirty := false }),
                       dm := st.dm.WritePage p.page_id p.data })
    else (true, st)

/-- Embeds `UnpinPgImp`: first frame holding `page_id`; `false` if absent or
`pin_count <= 0`; else decrement the pin count, set dirty when the caller says
so, and hand the frame to the replacer exactly when the count reaches 0. -/
def unpinPg (st : BufferPoolManagerInstance) (page_id : Int) (is_dirty : Bool) :
    Bool × BufferPoolManagerInstance :=
  match findFrameIdx st.pages page_id with
  | none => (false, st)
  | some i =>
    let p := st.pages.getD i {}
    if p.pin_count = 0 then (false, st)
    else
      let p2 : Page := { p with pin_count := p.pin_count - 1,
                                is_dirty := p.is_dirty || is_dirty }
      let st2 := { st with pages := st.pages.set i p2 }
      if p2.pin_count = 0 then
        (true, { st2 with replacer := st2.replacer.Unpin i })
      else (true, st2)

/-- Embeds `DeletePgImp`: absent → `true`; pinned → `false`; else
`DeallocatePage`, push the frame on the free list, reset its metadata
(`INVALID_PAGE_ID`, pin 0, clean, zeroed data) and return `true`.  Note the
code never removes the frame from the replacer. -/
def deletePg (st : BufferPoolManagerInstance) (page_id : Int) :
    Bool × BufferPoolManagerInstance :=
  match findFrameIdx st.pages page_id with
  | none => (true, st)
  | some i =>
    let p := st.pages.getD i {}
    if p.pin_count ≠ 0 then (false, st)
    else
      (true, { st with
        deallocated := st.deallocated ++ [p.page_id],
        free_list := st.free_list ++ [i],
        pages := st.pages.set i {} })

/-- Embeds the provisioning block of `NewPgImp` (lines 91-105): prefer the
free list; else ask the replacer for a victim; if the victim frame is dirty,
write it back and set the dirty bit to `false`. -/
def provisionNew (st : BufferPoolManagerInstance) :
    Option (Nat × BufferPoolManagerInstance) :=
  match st.free_list with
  | i :: rest => some (i, { st with free_list := rest })
  | [] =>
    match st.replacer.Victim with
    | (none, _) => none
    | (some i, repl2) =>
      let st2 := { st with replacer := repl2 }
      let p := st2.pages.getD i {}
      if p.is_dirty then
        some (i, { st2 with pages := st2.pages.set i ({ p with is_dirty := false }),
                            dm := st2.dm.WritePage p.page_id p.data })
      else some (i, st2)

/-- Embeds `NewPgImp`: provision a frame, `AllocatePage`, then install the new
page with `pin_count = 1`, `is_dirty = true` and zeroed data. -/
def newPg (st : BufferPoolManagerInstance) :
    Option (Nat × Int) × BufferPoolManagerInstance :=
  match provisionNew st with
  | none => (none, st)
  | some (i, st2) =>
    let a := AllocatePage st2
    let fresh : Page := { page_id := a.1, pin_count := 1, is_dirty := true, data := 0 }
    (some (i, a.1), { a.2 with pages := a.2.pages.set i fresh })

/-- Embeds the provisioning block of `FetchPgImp` (lines 146-162): prefer the
free list; else ask the replacer; if the victim frame is dirty, write it back
and then set the dirty bit to `true` (`SetDirty(true)`, line 158 — the draft
bug flagged by the spec). -/
def provisionFetch (st : BufferPoolManagerInstance) :
    Option (Nat × BufferPoolManagerInstance) :=
  match st.free_list with
  | i :: rest => some (i, { st with free_list := rest })
  | [] =>
    match st.replacer.Victim with
    | (none, _) => none
    | (some i, repl2) =>
      let st2 := { st with replacer := repl2 }
      let p := st2.pages.getD i {}
      if p.is_dirty then
        some (i, { st2 with pages := st2.pages.set i ({ p with is_dirty := true }),
                            dm := st2.dm.WritePage p.page_id p.data })
      else some (i, st2)

/-- Embeds `FetchPgImp`: on a hit (first frame holding `page_id`) pin it in the
replacer and increment its pin count; on a miss provision a frame, read the
page from disk and install it with `pin_count = 1`, `is_dirty = false`. -/
def fetchPg (st : BufferPoolManagerInstance) (page_id : Int) :
    Option Nat × BufferPoolManagerInstance :=
  match findFrameIdx st.pages page_id with
  | some i =>
    let st2 := { st with replacer := st.replacer.Pin i }
    let p := st2.pages.getD i {}
    (some i, { st2 with pages := st2.pages.set i { p with pin_count := p.pin_count + 1 } })
  | none =>
    match provisionFetch st with
    | none => (none, st)
    | some (i, st2) =>
      let d := st2.dm.ReadPage page_id
      let fresh : Page := { page_id := page_id, pin_count := 1, is_dirty := false, data := d }
      (some i, { st2 with pages := st2.pages.set i fresh })

end BufferPoolManagerInstance

/-! ## Operation sequences on one instance

Used to state invariants over every reachable state of a
`BufferPoolManagerInstance` (the public operations of the C++ class). -/

/-- One public operation of `BufferPoolManagerInstance`. -/
inductive BPMOp where
  | newPage : BPMOp
  | fetch : Int → BPMOp
  | unpin : Int → Bool → BPMOp
  | flush : Int → BPMOp
  | delete : Int → BPMOp
deriving Repr, DecidableEq

/-- Applies one operation (result discarded, state kept). -/
def applyOp (st : BufferPoolManagerInstance) : BPMOp → BufferPoolManagerInstance
  | .newPage => (st.newPg).2
  | .fetch pid => (st.fetchPg pid).2
  | .unpin pid d => (st.unpinPg pid d).2
  | .flush pid => (st.flushPg pid).2
  | .delete pid => (st.deletePg pid).2

/-- Runs a sequence of operations from a state. -/
def runOps (st : BufferPoolManagerInstance) (ops : List BPMOp) : BufferPoolManagerInstance :=
  ops.foldl applyOp st

/-! ## ParallelBufferPoolManager (parallel_buffer_pool_manager.cpp) -/

/-- Embeds the state of `ParallelBufferPoolManager`: the instance vector, the
round-robin cursor and the advertised total pool size. -/
structure ParallelBufferPoolManager where
  bpInstances : List BufferPoolManagerInstance
  starting_index : Nat
  pool_size : Nat

namespace ParallelBufferPoolManager

/-- Embeds the constructor: `num_instances` instances of per-instance size
`pool_size`, instance `i` built with `(pool_size, num_instances, i)`;
`this->pool_size = pool_size * num_instances`; `starting_index` zero. -/
def mkParallel (num_instances pool_size : Nat) (dm : DiskManager) :
    ParallelBufferPoolManager where
  bpInstances := (List.range num_instances).map
    (fun i => BufferPoolManagerInstance.mkInstance pool_size num_instances i dm)
  starting_index := 0
  pool_size := pool_size * num_instances

/-- Embeds `GetBufferPoolManager`: `page_id % bpInstances.size()` (C++ converts
the non-negative page id to `size_t`; page ids are non-negative). -/
def getInstanceIdx (pbm : ParallelBufferPoolManager) (page_id : Int) : Nat :=
  (page_id % (pbm.bpInstances.length : Int)).toNat

/-- Embeds `FetchPgImp`: delegate to the responsible instance. -/
def parFetchPg (pbm : ParallelBufferPoolManager) (page_id : Int) :
    Option Nat × ParallelBufferPoolManager :=
  let idx := pbm.getInstanceIdx page_id
  let r := (pbm.bpInstances.getD idx default).fetchPg page_id
  (r.1, { pbm with bpInstances := pbm.bpInstances.set idx r.2 })

/-- Embeds `UnpinPgImp`: delegate to the responsible instance. -/
def parUnpinPg (pbm : ParallelBufferPoolManager) (page_id : Int) (is_dirty : Bool) :
    Bool × ParallelBufferPoolManager :=
  let idx := pbm.getInstanceIdx page_id
  let r := (pbm.bpInstances.getD idx default).unpinPg page_id is_dirty
  (r.1, { pbm with bpInstances := pbm.bpInstances.set idx r.2 })

/-- Embeds `FlushPgImp`: delegate to the responsible instance. -/
def parFlushPg (pbm : ParallelBufferPoolManager) (page_id : Int) :
    Bool × ParallelBufferPoolManager :=
  let idx := pbm.getInstanceIdx page_id
  let r := (pbm.bpInstances.getD idx default).flushPg page_id
  (r.1, { pbm with bpInstances := pbm.bpInstances.set idx r.2 })

/-- Embeds `DeletePgImp`: delegate to the responsible instance. -/
def parDeletePg (pbm : ParallelBufferPoolManager) (page_id : Int) :
    Bool × ParallelBufferPoolManager :=
  let idx := pbm.getInstanceIdx page_id
  let r := (pbm.bpInstances.getD idx default).deletePg page_id
  (r.1, { pbm with bpInstances := pbm.bpInstances.set idx r.2 })

/-- Embeds the `for (i = 0; ...)` loop of the parallel `NewPgImp`: try the
instance at `(start + i) % size` for each `i` drawn from the list (the caller
passes `List.range N`); on success return the chosen index, the new page id
and the updated instance vector. -/
def parNewTry (insts : List BufferPoolManagerInstance) (start : Nat) :
    List Nat → Option (Nat × Int × List BufferPoolManagerInstance)
  | [] => none
  | i :: rest =>
    let index := (start + i) % insts.length
    let r := (insts.getD index default).newPg
    match r.1 with
    | none => parNewTry (insts.set index r.2) start rest
    | some fp => some (index, fp.2, insts.set index r.2)

/-- Embeds the parallel `NewPgImp`: try instances round-robin starting at
`starting_index`; on success bump `starting_index`; none if all fail. -/
def parNewPg (pbm : ParallelBufferPoolManager) :
    Option Int × ParallelBufferPoolManager :=
  match parNewTry pbm.bpInstances pbm.starting_index
      (List.range pbm.bpInstances.length) with
  | none => (none, pbm)
  | some (_, pid, insts2) =>
    (some pid, { pbm with bpInstances := insts2,
                          starting_index := pbm.starting_index + 1 })

end ParallelBufferPoolManager

/-! ## Concrete fixtures used by witnesses and counterexamples -/

/-- Fixture: a zero-filled disk. -/
def dmZero : DiskManager := ⟨fun _ => 0, []⟩

/-- Fixture: a disk whose every page reads as 7. -/
def dmSeven : DiskManager := ⟨fun _ => 7, []⟩

/-- Fixture: a one-frame pool whose only frame holds dirty page 5 (data 42),
free list empty, frame 0 evictable. -/
def stDirtyVictim : BufferPoolManagerInstance :=
  { pool_size := 1, num_instances := 1, instance_index := 0, next_page_id := 1,
    pages := [{ page_id := 5, pin_count := 0, is_dirty := true, data := 42 }],
    free_list := [], replacer := ⟨[0]⟩, dm := dmSeven }

/-- Fixture: a one-frame pool after `New` (page 0 pinned in frame 0). -/
def stAfterNew : BufferPoolManagerInstance :=
  ((BufferPoolManagerInstance.mkInstance 1 1 0 dmZero).newPg).2

/-- Fixture: `stAfterNew` after `Unpin(0, false)` — frame 0 evictable. -/
def stAfterUnpin : BufferPoolManagerInstance := (stAfterNew.unpinPg 0 false).2

/-- Fixture: `stAfterUnpin` after `Delete(0)`. -/
def stAfterDelete : BufferPoolManagerInstance := (stAfterUnpin.deletePg 0).2

/-- Fixture: a 3-slot clock replacer after `Unpin` of 0, 1, 2 (all reference
bits set). -/
def cFull : ClockReplacer := (((ClockReplacer.mkNew 3).Unpin 0).Unpin 1).Unpin 2

/-- Fixture: a parallel pool of 2 instances with 1 frame each. -/
def pbmTwo : ParallelBufferPoolManager :=
  ParallelBufferPoolManager.mkParallel 2 1 dmZero

/-! ## Helper lemmas -/

open BufferPoolManagerInstance

/-- Helper: an index returned by the frame scan is in range. -/
theorem findFrameIdx_lt_length :
    ∀ (pages : List Page) (pid : Int) (i : Nat),
      findFrameIdx pages pid = some i → i < pages.length := by
  intro pages
  induction pages with
  | nil => intro pid i h; simp [findFrameIdx] at h
  | cons p rest ih =>
    intro pid i h
    by_cases hp : p.page_id = pid
    · simp [findFrameIdx, hp] at h
      have h0 : i = 0 := by omega
      subst h0
      simp
    · simp [findFrameIdx, hp] at h
      obtain ⟨j, hj, rfl⟩ := h
      have := ih pid j hj
      simp
      omega

/-- Helper: the frame scan returns a frame holding the requested page id. -/
theorem findFrameIdx_matches :
    ∀ (pages : List Page) (pid : Int) (i : Nat),
      findFrameIdx pages pid = some i → (pages.getD i {}).page_id = pid := by
  intro pages
  induction pages with
  | nil => intro pid i h; simp [findFrameIdx] at h
  | cons p rest ih =>
    intro pid i h
    by_cases hp : p.page_id = pid
    · simp [findFrameIdx, hp] at h
      subst h
      simpa using hp
    · simp [findFrameIdx, hp] at h
      obtain ⟨j, hj, rfl⟩ := h
      simpa using ih pid j hj

/-! ## Claim theorems -/

/-- C4: For the LRU replacer, `Unpin` of a frame already in the evictable set
removes it and re-appends it at the tail (promotion), and `Victim` pops the
head (oldest); concretely, after `Unpin` of 0, 1, 2 in that order `Victim`
returns 0, and after then unpinning 0 again the next `Victim` returns 1. -/
theorem c4_lru_promotes_and_pops_head :
    (∀ (r : LRUReplacer) (f : Nat), f ∈ r.frames →
        (r.Unpin f).frames = r.frames.erase f ++ [f]) ∧
    (∀ (r : LRUReplacer) (f : Nat) (rest : List Nat), r.frames = f :: rest →
        (r.Victim).1 = some f ∧ (r.Victim).2.frames = rest) ∧
    ((((LRUReplacer.mkEmpty.Unpin 0).Unpin 1).Unpin 2).Victim.1 = some 0 ∧
     ((((LRUReplacer.mkEmpty.Unpin 0).Unpin 1).Unpin 2).Victim.2.Unpin 0).Victim.1
        = some 1) := by
  refine ⟨fun r f _ => rfl, fun r f rest h => ?_, by decide⟩
  simp [LRUReplacer.Victim, h]

/-- Witness for `c4_lru_promotes_and_pops_head` at concrete inputs. -/
theorem c4_lru_promotes_and_pops_head_witness :
    (5 ∈ (⟨[5]⟩ : LRUReplacer).frames ∧
      ((⟨[5]⟩ : LRUReplacer).Unpin 5).frames =
        (⟨[5]⟩ : LRUReplacer).frames.erase 5 ++ [5]) ∧
    ((⟨[1, 2]⟩ : LRUReplacer).frames = 1 :: [2] ∧
      ((⟨[1, 2]⟩ : LRUReplacer).Victim).1 = some 1) :=
  ⟨⟨by decide, c4_lru_promotes_and_pops_head.1 ⟨[5]⟩ 5 (by decide)⟩,
   ⟨rfl, (c4_lru_promotes_and_pops_head.2.1 ⟨[1, 2]⟩ 1 [2] rfl).1⟩⟩

/-- C1 (code bug): on the Clock variant, `Victim` does not remove the chosen
frame from the evictable set: after `Unpin(0)` on a 3-slot `ClockReplacer`,
`Victim` returns frame 0 yet `resident[0]` stays set, so `Size` stays 1
instead of decreasing to 0. -/
theorem c1_clock_victim_leaves_frame_evictable :
    ((ClockReplacer.mkNew 3).Unpin 0).Size = 1 ∧
    ((ClockReplacer.mkNew 3).Unpin 0).Victim =
      some (0, ⟨[true, false, false], [false, false, false], 1⟩) ∧
    (((ClockReplacer.mkNew 3).Unpin 0).Victim.map (fun p => p.2.Size)) = some 1 := by
  decide

/-- C2 (code bug): after `New p0; Unpin(p0, false); Delete(p0)` on a one-frame
pool, `DeletePgImp` pushes frame 0 onto the free list without removing it from
the replacer: at the operation boundary frame 0 is simultaneously on the free
list and in the replacer, and the replacer holds a non-resident frame. -/
theorem c2_delete_breaks_replacer_invariant :
    (stAfterUnpin.replacer.frames = [0] ∧ stAfterUnpin.free_list = []) ∧
    (stAfterUnpin.deletePg 0).1 = true ∧
    stAfterDelete.free_list = [0] ∧
    stAfterDelete.replacer.frames = [0] ∧
    (stAfterDelete.pages.getD 0 {}).page_id = INVALID_PAGE_ID := by
  decide

/-- C3 (code bug): on a Fetch miss whose provisioned victim frame is dirty,
`FetchPgImp` does write the old page to disk but then sets the frame's dirty
flag to `true` (`SetDirty(true)`, line 158) instead of clearing it; the flag
only turns `false` again when the new page is installed, not via `Unpin`. -/
theorem c3_fetch_writeback_sets_dirty_true :
    (BufferPoolManagerInstance.provisionFetch stDirtyVictim).map
        (fun p => ((p.2.pages.getD 0 {}).is_dirty, p.2.dm.writes)) =
      some (true, [(5, 42)]) ∧
    ((stDirtyVictim.fetchPg 9).2.pages.getD 0 {}) =
      { page_id := 9, pin_count := 1, is_dirty := false, data := 7 } ∧
    (stDirtyVictim.fetchPg 9).2.dm.writes = [(5, 42)] := by
  decide

/-- C10: `DeletePgImp` never calls `DiskManager::WritePage` — disk contents
and the write trace are unchanged on every path — and on the resident,
unpinned path it deallocates the page id, clears the frame's metadata, zeroes
its data and pushes the frame on the free list, discarding any modifications
made since the last flush. -/
theorem c10_delete_never_writes_disk (st : BufferPoolManagerInstance) (pid : Int) :
    ((st.deletePg pid).2.dm.writes = st.dm.writes ∧
     (st.deletePg pid).2.dm.disk = st.dm.disk) ∧
    (∀ i, findFrameIdx st.pages pid = some i →
      (st.pages.getD i {}).pin_count = 0 →
      (st.deletePg pid).1 = true ∧
      (st.deletePg pid).2.deallocated =
        st.deallocated ++ [(st.pages.getD i {}).page_id] ∧
      (st.deletePg pid).2.pages = st.pages.set i {} ∧
      (st.deletePg pid).2.free_list = st.free_list ++ [i]) := by
  constructor
  · cases h : findFrameIdx st.pages pid with
    | none => simp [deletePg, h]
    | some i =>
      by_cases hp : (st.pages.getD i {}).pin_count = 0 <;>
        simp only [List.getD_eq_getElem?_getD] at hp <;>
        simp [deletePg, h, hp]
  · intro i h hp
    simp only [List.getD_eq_getElem?_getD] at hp
    simp [deletePg, h, hp]

/-- Witness for `c10_delete_never_writes_disk`: deleting page 0 of
`stAfterUnpin` (resident in frame 0, unpinned, dirty). -/
theorem c10_delete_never_writes_disk_witness :
    (findFrameIdx stAfterUnpin.pages 0 = some 0 ∧
     (stAfterUnpin.pages.getD 0 {}).pin_count = 0) ∧
    ((stAfterUnpin.deletePg 0).1 = true ∧
     (stAfterUnpin.deletePg 0).2.deallocated =
        stAfterUnpin.deallocated ++ [(stAfterUnpin.pages.getD 0 {}).page_id] ∧
     (stAfterUnpin.deletePg 0).2.pages = stAfterUnpin.pages.set 0 {} ∧
     (stAfterUnpin.deletePg 0).2.free_list = stAfterUnpin.free_list ++ [0]) :=
  ⟨⟨by decide, by decide⟩,
   (c10_delete_never_writes_disk stAfterUnpin 0).2 0 (by decide) (by decide)⟩

/-- C5: `UnpinPgImp` returns `false` leaving the state unchanged when the page
is not resident or its pin count is 0; otherwise it decrements the pin count,
ors the dirty bit with the caller's flag (never clearing it), hands the frame
to the replacer exactly when the count reaches 0, and returns `true`. -/
theorem c5_unpin_spec (st : BufferPoolManagerInstance) (pid : Int) (d : Bool) :
    (findFrameIdx st.pages pid = none → st.unpinPg pid d = (false, st)) ∧
    (∀ i, findFrameIdx st.pages pid = some i →
      ((st.pages.getD i {}).pin_count = 0 → st.unpinPg pid d = (false, st)) ∧
      ((st.pages.getD i {}).pin_count ≠ 0 →
        (st.unpinPg pid d).1 = true ∧
        (st.unpinPg pid d).2.pages = st.pages.set i
          ({ st.pages.getD i {} with
              pin_count := (st.pages.getD i {}).pin_count - 1,
              is_dirty := (st.pages.getD i {}).is_dirty || d }) ∧
        (st.unpinPg pid d).2.replacer =
          (if (st.pages.getD i {}).pin_count - 1 = 0
           then st.replacer.Unpin i else st.replacer) ∧
        (st.unpinPg pid d).2.free_list = st.free_list ∧
        (st.unpinPg pid d).2.dm.writes = st.dm.writes ∧
        (st.unpinPg pid d).2.next_page_id = st.next_page_id)) := by
  refine ⟨fun h => by simp [unpinPg, h],
    fun i h => ⟨fun hp => by
      simp only [List.getD_eq_getElem?_getD] at hp
      simp [unpinPg, h, hp],
    fun hp => ?_⟩⟩
  by_cases hz : (st.pages.getD i {}).pin_count - 1 = 0 <;>
    simp only [List.getD_eq_getElem?_getD] at hp hz <;>
    simp [unpinPg, h, hp, hz]

/-- Witness for `c5_unpin_spec`: unpinning page 0 of `stAfterNew` (resident in
frame 0 with pin count 1). -/
theorem c5_unpin_spec_witness :
    (findFrameIdx stAfterNew.pages 0 = some 0 ∧
     (stAfterNew.pages.getD 0 {}).pin_count ≠ 0) ∧
    ((stAfterNew.unpinPg 0 false).1 = true ∧
     (stAfterNew.unpinPg 0 false).2.pages = stAfterNew.pages.set 0
       ({ stAfterNew.pages.getD 0 {} with
           pin_count := (stAfterNew.pages.getD 0 {}).pin_count - 1,
           is_dirty := (stAfterNew.pages.getD 0 {}).is_dirty || false }) ∧
     (stAfterNew.unpinPg 0 false).2.replacer =
       (if (stAfterNew.pages.getD 0 {}).pin_count - 1 = 0
        then stAfterNew.replacer.Unpin 0 else stAfterNew.replacer) ∧
     (stAfterNew.unpinPg 0 false).2.free_list = stAfterNew.free_list ∧
     (stAfterNew.unpinPg 0 false).2.dm.writes = stAfterNew.dm.writes ∧
     (stAfterNew.unpinPg 0 false).2.next_page_id = stAfterNew.next_page_id) :=
  ⟨⟨by decide, by decide⟩,
   ((c5_unpin_spec stAfterNew 0 false).2 0 (by decide)).2 (by decide)⟩

/-- C6: `DeletePgImp` returns `true` when the page is not resident; returns
`false` with no state change when the page is resident and pinned; otherwise
deallocates the page id, resets the frame to `INVALID_PAGE_ID`, clean and
zeroed, pushes the frame on the free list and returns `true`; and (given that
no two frames share the page id) two Deletes in a row both return `true`. -/
theorem c6_delete_spec (st : BufferPoolManagerInstance) (pid : Int) :
    (findFrameIdx st.pages pid = none → st.deletePg pid = (true, st)) ∧
    (∀ i, findFrameIdx st.pages pid = some i →
      ((st.pages.getD i {}).pin_count ≠ 0 → st.deletePg pid = (false, st)) ∧
      ((st.pages.getD i {}).pin_count = 0 →
        st.deletePg pid = (true, { st with
          deallocated := st.deallocated ++ [(st.pages.getD i {}).page_id],
          free_list := st.free_list ++ [i],
          pages := st.pages.set i {} }))) ∧
    ((∀ a b, a < st.pages.length → b < st.pages.length → a ≠ b →
        (st.pages.getD a {}).page_id = pid → (st.pages.getD b {}).page_id ≠ pid) →
      (st.deletePg pid).1 = true →
      ((st.deletePg pid).2.deletePg pid).1 = true) := by
  refine ⟨fun h => by simp [deletePg, h], fun i h => ⟨fun hp => by
      simp only [List.getD_eq_getElem?_getD] at hp
      simp [deletePg, h, hp],
    fun hp => by
      simp only [List.getD_eq_getElem?_getD] at hp
      simp [deletePg, h, hp]⟩, fun hdup h1 => ?_⟩
  cases h : findFrameIdx st.pages pid with
  | none =>
    simp [deletePg, h]
  | some i =>
    have hi : i < st.pages.length := findFrameIdx_lt_length _ _ _ h
    by_cases hp : (st.pages.getD i {}).pin_count = 0
    · have hp2 := hp
      simp only [List.getD_eq_getElem?_getD] at hp2
      have hres : st.deletePg pid = (true, { st with
          deallocated := st.deallocated ++ [(st.pages.getD i {}).page_id],
          free_list := st.free_list ++ [i],
          pages := st.pages.set i {} }) := by
        simp [deletePg, h, hp2]
      rw [hres]
      cases h2 : findFrameIdx (st.pages.set i {}) pid with
      | none => simp [deletePg, h2]
      | some j =>
        rcases eq_or_ne j i with rfl | hne
        · have hset : (st.pages.set j ({} : Page)).getD j ({} : Page) = {} := by
            simp [List.getD_eq_getElem?_getD, List.getElem?_set_self hi]
          simp only [List.getD_eq_getElem?_getD] at hset
          simp [deletePg, h2, hset]
        · exfalso
          have hj := findFrameIdx_matches _ _ _ h2
          have hjlen : j < st.pages.length := by
            have := findFrameIdx_lt_length _ _ _ h2
            simpa using this
          have hgd : (st.pages.set i ({} : Page)).getD j ({} : Page) =
              st.pages.getD j {} := by
            simp [List.getD_eq_getElem?_getD, List.getElem?_set_ne hne.symm]
          rw [hgd] at hj
          exact hdup i j hi hjlen hne.symm (findFrameIdx_matches _ _ _ h) hj
    · exfalso
      have hp2 := hp
      simp only [List.getD_eq_getElem?_getD] at hp2
      have hfalse : (st.deletePg pid).1 = false := by simp [deletePg, h, hp2]
      rw [hfalse] at h1
      exact absurd h1 (by simp)

/-- Witness for `c6_delete_spec`: deleting page 0 of `stAfterUnpin` (resident
in frame 0, unpinned), then deleting it again. -/
theorem c6_delete_spec_witness :
    ((findFrameIdx stAfterUnpin.pages 0 = some 0 ∧
      (stAfterUnpin.pages.getD 0 {}).pin_count = 0) ∧
     stAfterUnpin.deletePg 0 = (true, { stAfterUnpin with
        deallocated := stAfterUnpin.deallocated ++
          [(stAfterUnpin.pages.getD 0 {}).page_id],
        free_list := stAfterUnpin.free_list ++ [0],
        pages := stAfterUnpin.pages.set 0 {} })) ∧
    ((stAfterUnpin.deletePg 0).1 = true ∧
     ((stAfterUnpin.deletePg 0).2.deletePg 0).1 = true) :=
  ⟨⟨⟨by decide, by decide⟩,
    ((c6_delete_spec stAfterUnpin 0).2.1 0 (by decide)).2 (by decide)⟩,
   ⟨by decide,
    (c6_delete_spec stAfterUnpin 0).2.2
      (by
        intro a b ha hb hab hma
        have hlen : stAfterUnpin.pages.length = 1 := by decide
        rw [hlen] at ha hb
        omega)
      (by decide)⟩⟩

/-- Helper: a frame provisioned by the Fetch path never changes
`num_instances`, `next_page_id` or the allocation trace. -/
theorem provisionFetch_keeps_alloc (st : BufferPoolManagerInstance) :
    ∀ p : Nat × BufferPoolManagerInstance, provisionFetch st = some p →
      p.2.num_instances = st.num_instances ∧
      p.2.next_page_id = st.next_page_id ∧
      p.2.allocatedIds = st.allocatedIds := by
  unfold provisionFetch
  dsimp only
  repeat' split
  all_goals intro p h
  all_goals first
    | exact Option.noConfusion h
    | (injection h with h2; subst h2; exact ⟨rfl, rfl, rfl⟩)

/-- Helper: a frame provisioned by the New path never changes
`num_instances`, `next_page_id` or the allocation trace. -/
theorem provisionNew_keeps_alloc (st : BufferPoolManagerInstance) :
    ∀ p : Nat × BufferPoolManagerInstance, provisionNew st = some p →
      p.2.num_instances = st.num_instances ∧
      p.2.next_page_id = st.next_page_id ∧
      p.2.allocatedIds = st.allocatedIds := by
  unfold provisionNew
  dsimp only
  repeat' split
  all_goals intro p h
  all_goals first
    | exact Option.noConfusion h
    | (injection h with h2; subst h2; exact ⟨rfl, rfl, rfl⟩)

/-- Helper: `FetchPgImp` never changes `num_instances`, `next_page_id` or the
allocation trace. -/
theorem fetchPg_keeps_alloc (st : BufferPoolManagerInstance) (pid : Int) :
    (st.fetchPg pid).2.num_instances = st.num_instances ∧
    (st.fetchPg pid).2.next_page_id = st.next_page_id ∧
    (st.fetchPg pid).2.allocatedIds = st.allocatedIds := by
  unfold fetchPg
  cases h : findFrameIdx st.pages pid with
  | some i => simp
  | none =>
    cases hp : provisionFetch st with
    | none => simp
    | some v =>
      obtain ⟨i, st2⟩ := v
      have hv := provisionFetch_keeps_alloc st (i, st2) hp
      have h1 : st2.num_instances = st.num_instances := hv.1
      have h2 : st2.next_page_id = st.next_page_id := hv.2.1
      have h3 : st2.allocatedIds = st.allocatedIds := hv.2.2
      simp [h1, h2, h3]

/-- Helper: `UnpinPgImp` never changes `num_instances`, `next_page_id` or the
allocation trace. -/
theorem unpinPg_keeps_alloc (st : BufferPoolManagerInstance) (pid : Int) (d : Bool) :
    (st.unpinPg pid d).2.num_instances = st.num_instances ∧
    (st.unpinPg pid d).2.next_page_id = st.next_page_id ∧
    (st.unpinPg pid d).2.allocatedIds = st.allocatedIds := by
  unfold unpinPg
  dsimp only
  refine ⟨?_, ?_, ?_⟩ <;> (repeat' split) <;> rfl

/-- Helper: `FlushPgImp` never changes `num_instances`, `next_page_id` or the
allocation trace. -/
theorem flushPg_keeps_alloc (st : BufferPoolManagerInstance) (pid : Int) :
    (st.flushPg pid).2.num_instances = st.num_instances ∧
    (st.flushPg pid).2.next_page_id = st.next_page_id ∧
    (st.flushPg pid).2.allocatedIds = st.allocatedIds := by
  unfold flushPg
  repeat' split <;> simp_all

/-- Helper: `DeletePgImp` never changes `num_instances`, `next_page_id` or the
allocation trace. -/
theorem deletePg_keeps_alloc (st : BufferPoolManagerInstance) (pid : Int) :
    (st.deletePg pid).2.num_instances = st.num_instances ∧
    (st.deletePg pid).2.next_page_id = st.next_page_id ∧
    (st.deletePg pid).2.allocatedIds = st.allocatedIds := by
  unfold deletePg
  repeat' split <;> simp_all

/-- Helper: `NewPgImp` either leaves the allocation state unchanged (no frame
available) or performs exactly one `AllocatePage`. -/
theorem newPg_alloc_char (st : BufferPoolManagerInstance) :
    (st.newPg).2.num_instances = st.num_instances ∧
    (((st.newPg).2.next_page_id = st.next_page_id ∧
      (st.newPg).2.allocatedIds = st.allocatedIds) ∨
     ((st.newPg).2.next_page_id = st.next_page_id + st.num_instances ∧
      (st.newPg).2.allocatedIds = st.allocatedIds ++ [st.next_page_id])) := by
  unfold newPg
  cases hp : provisionNew st with
  | none => simp
  | some v =>
    obtain ⟨i, st2⟩ := v
    have hv := provisionNew_keeps_alloc st (i, st2) hp
    have h1 : st2.num_instances = st.num_instances := hv.1
    have h2 : st2.next_page_id = st.next_page_id := hv.2.1
    have h3 : st2.allocatedIds = st.allocatedIds := hv.2.2
    simp [AllocatePage, h1, h2, h3]

/-- Helper: every public operation preserves the allocation residue invariant
(instance count, `next_page_id` residue, and the residues of all page ids
allocated so far). -/
theorem runOps_alloc_invariant (N k : Nat) (ops : List BPMOp) :
    ∀ st : BufferPoolManagerInstance,
      st.num_instances = N → st.next_page_id % (N : Int) = k →
      (∀ id ∈ st.allocatedIds, id % (N : Int) = k) →
      (runOps st ops).num_instances = N ∧
      (runOps st ops).next_page_id % (N : Int) = k ∧
      (∀ id ∈ (runOps st ops).allocatedIds, id % (N : Int) = k) := by
  induction ops with
  | nil => intro st h1 h2 h3; exact ⟨h1, h2, h3⟩
  | cons op rest ih =>
    intro st h1 h2 h3
    have hstep : (applyOp st op).num_instances = N ∧
        (applyOp st op).next_page_id % (N : Int) = k ∧
        (∀ id ∈ (applyOp st op).allocatedIds, id % (N : Int) = k) := by
      cases op with
      | newPage =>
        obtain ⟨hn, hc⟩ := newPg_alloc_char st
        refine ⟨hn.trans h1, ?_⟩
        rcases hc with ⟨ha, hb⟩ | ⟨ha, hb⟩
        · exact ⟨by rw [show (applyOp st BPMOp.newPage).next_page_id =
              st.next_page_id from ha]; exact h2,
            by rw [show (applyOp st BPMOp.newPage).allocatedIds =
              st.allocatedIds from hb]; exact h3⟩
        · constructor
          · rw [show (applyOp st BPMOp.newPage).next_page_id =
              st.next_page_id + st.num_instances from ha, h1]
            rw [show st.next_page_id + (N : Int) = st.next_page_id + (N : Int) * 1
              by ring]
            rw [Int.add_mul_emod_self_left]
            exact h2
          · intro id hid
            rw [show (applyOp st BPMOp.newPage).allocatedIds =
              st.allocatedIds ++ [st.next_page_id] from hb] at hid
            rcases List.mem_append.mp hid with hida | hidb
            · exact h3 id hida
            · rw [List.mem_singleton.mp hidb]
              exact h2
      | fetch pid =>
        obtain ⟨ha, hb, hc⟩ := fetchPg_keeps_alloc st pid
        exact ⟨ha.trans h1, by rw [show (applyOp st (BPMOp.fetch pid)).next_page_id =
            st.next_page_id from hb]; exact h2,
          by rw [show (applyOp st (BPMOp.fetch pid)).allocatedIds =
            st.allocatedIds from hc]; exact h3⟩
      | unpin pid d =>
        obtain ⟨ha, hb, hc⟩ := unpinPg_keeps_alloc st pid d
        exact ⟨ha.trans h1, by rw [show (applyOp st (BPMOp.unpin pid d)).next_page_id =
            st.next_page_id from hb]; exact h2,
          by rw [show (applyOp st (BPMOp.unpin pid d)).allocatedIds =
            st.allocatedIds from hc]; exact h3⟩
      | flush pid =>
        obtain ⟨ha, hb, hc⟩ := flushPg_keeps_alloc st pid
        exact ⟨ha.trans h1, by rw [show (applyOp st (BPMOp.flush pid)).next_page_id =
            st.next_page_id from hb]; exact h2,
          by rw [show (applyOp st (BPMOp.flush pid)).allocatedIds =
            st.allocatedIds from hc]; exact h3⟩
      | delete pid =>
        obtain ⟨ha, hb, hc⟩ := deletePg_keeps_alloc st pid
        exact ⟨ha.trans h1, by rw [show (applyOp st (BPMOp.delete pid)).next_page_id =
            st.next_page_id from hb]; exact h2,
          by rw [show (applyOp st (BPMOp.delete pid)).allocatedIds =
            st.allocatedIds from hc]; exact h3⟩
    exact ih (applyOp st op) hstep.1 hstep.2.1 hstep.2.2

/-- C7: On an instance built as index `k` of `N`, `next_page_id` is seeded at
`k`, `AllocatePage` returns it and bumps it by `num_instances`, and after any
sequence of public operations every page id the instance has allocated
satisfies `id % N = k`. -/
theorem c7_new_allocations_in_residue_class (psize N k : Nat) (hk : k < N)
    (dm : DiskManager) (ops : List BPMOp) :
    (mkInstance psize N k dm).next_page_id = k ∧
    (∀ st : BufferPoolManagerInstance,
      (AllocatePage st).1 = st.next_page_id ∧
      (AllocatePage st).2.next_page_id = st.next_page_id + st.num_instances) ∧
    ∀ id ∈ (runOps (mkInstance psize N k dm) ops).allocatedIds,
      id % (N : Int) = k := by
  refine ⟨rfl, fun st => ⟨rfl, rfl⟩, ?_⟩
  have h0 : (mkInstance psize N k dm).next_page_id % (N : Int) = k := by
    show ((k : Nat) : Int) % ((N : Nat) : Int) = k
    rw [Int.emod_eq_of_lt (by positivity) (by exact_mod_cast hk)]
  refine (runOps_alloc_invariant N k ops _ rfl h0 ?_).2.2
  intro id hid
  simp [mkInstance] at hid

/-- Witness for `c7_new_allocations_in_residue_class`: instance 1 of 2 running
three News and a Fetch. -/
theorem c7_new_allocations_in_residue_class_witness :
    1 < 2 ∧ ∀ id ∈ (runOps (mkInstance 1 2 1 dmZero)
        [BPMOp.newPage, BPMOp.newPage, BPMOp.fetch 0, BPMOp.newPage]).allocatedIds,
      id % ((2 : Nat) : Int) = 1 :=
  ⟨by decide,
   (c7_new_allocations_in_residue_class 1 2 1 (by decide) dmZero
      [BPMOp.newPage, BPMOp.newPage, BPMOp.fetch 0, BPMOp.newPage]).2.2⟩

/-- Helper: adding `0 < s < n` and reducing mod `n` moves off the start
position. -/
theorem add_mod_ne_self (n i s : Nat) (hi : i < n) (hs1 : 0 < s) (hs2 : s < n) :
    (i + s) % n ≠ i := by
  intro h
  have hmod : i % n = (i + s) % n := by rw [h, Nat.mod_eq_of_lt hi]
  have hdvd : n ∣ (i + s) - i := (Nat.modEq_iff_dvd' (by omega)).mp hmod
  rw [show i + s - i = s by omega] at hdvd
  exact absurd (Nat.le_of_dvd hs1 hdvd) (by omega)

/-- Helper (clock sweep, unmarked target): if the slot at cyclic distance `d`
from the hand is resident with a clear reference bit, the victim loop halts
within `d + 1` iterations. -/
theorem victimLoop_halts_unmarked (n : Nat) :
    ∀ (d : Nat) (r : ClockReplacer) (fuel : Nat),
      r.resident.length = n → r.clock.length = n →
      r.current_frame < n → d < n →
      r.resident.getD ((r.current_frame + d) % n) false = true →
      r.clock.getD ((r.current_frame + d) % n) false = false →
      d + 1 ≤ fuel →
      ∃ res, ClockReplacer.victimLoop fuel r = some res := by
  intro d
  induction d with
  | zero =>
    intro r fuel hr hc hcur _ hres hclk hfuel
    obtain ⟨f, rfl⟩ : ∃ f, fuel = f + 1 := ⟨fuel - 1, by omega⟩
    have hj : (r.current_frame + 0) % n = r.current_frame := by
      simpa using Nat.mod_eq_of_lt hcur
    rw [hj] at hres hclk
    simp only [List.getD_eq_getElem?_getD] at hres hclk
    exact ⟨(r.current_frame, r.advance), by
      simp [ClockReplacer.victimLoop, hres, hclk, ClockReplacer.advance]⟩
  | succ d ih =>
    intro r fuel hr hc hcur hd hres hclk hfuel
    obtain ⟨f, rfl⟩ : ∃ f, fuel = f + 1 := ⟨fuel - 1, by omega⟩
    have hn : 0 < n := by omega
    have hshift : (((r.current_frame + 1) % n) + d) % n =
        (r.current_frame + (d + 1)) % n := by
      rw [Nat.mod_add_mod]
      rw [show r.current_frame + 1 + d = r.current_frame + (d + 1) by omega]
    have hne : (r.current_frame + (d + 1)) % n ≠ r.current_frame :=
      add_mod_ne_self n r.current_frame (d + 1) hcur (by omega) hd
    by_cases hri : r.resident.getD r.current_frame false = true
    · have hri2 := hri
      simp only [List.getD_eq_getElem?_getD] at hri2
      by_cases hci : r.clock.getD r.current_frame false = true
      · have hci2 := hci
        simp only [List.getD_eq_getElem?_getD] at hci2
        have hstep : ClockReplacer.victimLoop (f + 1) r =
            ClockReplacer.victimLoop f (ClockReplacer.advance
              { r with clock := r.clock.set r.current_frame false }) := by
          simp [ClockReplacer.victimLoop, hri2, hci2]
        rw [hstep]
        refine ih (ClockReplacer.advance
          { r with clock := r.clock.set r.current_frame false }) f ?_ ?_ ?_ ?_ ?_ ?_ ?_
        · simpa [ClockReplacer.advance] using hr
        · simpa [ClockReplacer.advance] using hc
        · simp only [ClockReplacer.advance, List.length_set, hc]
          exact Nat.mod_lt _ hn
        · omega
        · simp only [ClockReplacer.advance, List.length_set, hc]
          rw [hshift]
          exact hres
        · simp only [ClockReplacer.advance, List.length_set, hc]
          rw [hshift]
          rw [List.getD_eq_getElem?_getD, List.getElem?_set_ne (Ne.symm hne),
            ← List.getD_eq_getElem?_getD]
          exact hclk
        · omega
      · have hci2 := hci
        simp only [List.getD_eq_getElem?_getD] at hci2
        refine ⟨(r.current_frame, r.advance), ?_⟩
        simp [ClockReplacer.victimLoop, hri2, hci2]
    · have hri2 := hri
      simp only [List.getD_eq_getElem?_getD] at hri2
      have hstep : ClockReplacer.victimLoop (f + 1) r =
          ClockReplacer.victimLoop f r.advance := by
        simp [ClockReplacer.victimLoop, hri2]
      rw [hstep]
      refine ih r.advance f ?_ ?_ ?_ ?_ ?_ ?_ ?_
      · simpa [ClockReplacer.advance] using hr
      · simpa [ClockReplacer.advance] using hc
      · simp only [ClockReplacer.advance, hc]
        exact Nat.mod_lt _ hn
      · omega
      · simp only [ClockReplacer.advance, hc]
        rw [hshift]
        exact hres
      · simp only [ClockReplacer.advance, hc]
        rw [hshift]
        exact hclk
      · omega

/-- Helper (clock sweep, any resident target): if the slot at cyclic distance
`d` from the hand is resident, the victim loop halts within `d + 1 + n`
iterations: at worst one pass clears reference bits all the way to the target
and a second pass returns at it. -/
theorem victimLoop_halts_resident (n : Nat) :
    ∀ (d : Nat) (r : ClockReplacer) (fuel : Nat),
      r.resident.length = n → r.clock.length = n →
      r.current_frame < n → d < n →
      r.resident.getD ((r.current_frame + d) % n) false = true →
      d + 1 + n ≤ fuel →
      ∃ res, ClockReplacer.victimLoop fuel r = some res := by
  intro d
  induction d with
  | zero =>
    intro r fuel hr hc hcur hd hres hfuel
    obtain ⟨f, rfl⟩ : ∃ f, fuel = f + 1 := ⟨fuel - 1, by omega⟩
    have hn : 0 < n := by omega
    have hj : (r.current_frame + 0) % n = r.current_frame := by
      simpa using Nat.mod_eq_of_lt hcur
    rw [hj] at hres
    have hri2 := hres
    simp only [List.getD_eq_getElem?_getD] at hri2
    by_cases hci : r.clock.getD r.current_frame false = true
    · have hci2 := hci
      simp only [List.getD_eq_getElem?_getD] at hci2
      have hback : (((r.current_frame + 1) % n) + (n - 1)) % n = r.current_frame := by
        rw [Nat.mod_add_mod]
        rw [show r.current_frame + 1 + (n - 1) = r.current_frame + n by omega]
        rw [Nat.add_mod_right]
        exact Nat.mod_eq_of_lt hcur
      have hstep : ClockReplacer.victimLoop (f + 1) r =
          ClockReplacer.victimLoop f (ClockReplacer.advance
            { r with clock := r.clock.set r.current_frame false }) := by
        simp [ClockReplacer.victimLoop, hri2, hci2]
      rw [hstep]
      refine victimLoop_halts_unmarked n (n - 1) (ClockReplacer.advance
        { r with clock := r.clock.set r.current_frame false }) f ?_ ?_ ?_ ?_ ?_ ?_ ?_
      · simpa [ClockReplacer.advance] using hr
      · simpa [ClockReplacer.advance] using hc
      · simp only [ClockReplacer.advance, List.length_set, hc]
        exact Nat.mod_lt _ hn
      · omega
      · simp only [ClockReplacer.advance, List.length_set, hc]
        rw [hback]
        exact hres
      · simp only [ClockReplacer.advance, List.length_set, hc]
        rw [hback]
        rw [List.getD_eq_getElem?_getD,
          List.getElem?_set_self (by rw [hc]; exact hcur)]
        rfl
      · omega
    · have hci2 := hci
      simp only [List.getD_eq_getElem?_getD] at hci2
      refine ⟨(r.current_frame, r.advance), ?_⟩
      simp [ClockReplacer.victimLoop, hri2, hci2]
  | succ d ih =>
    intro r fuel hr hc hcur hd hres hfuel
    obtain ⟨f, rfl⟩ : ∃ f, fuel = f + 1 := ⟨fuel - 1, by omega⟩
    have hn : 0 < n := by omega
    have hshift : (((r.current_frame + 1) % n) + d) % n =
        (r.current_frame + (d + 1)) % n := by
      rw [Nat.mod_add_mod]
      rw [show r.current_frame + 1 + d = r.current_frame + (d + 1) by omega]
    by_cases hri : r.resident.getD r.current_frame false = true
    · have hri2 := hri
      simp only [List.getD_eq_getElem?_getD] at hri2
      by_cases hci : r.clock.getD r.current_frame false = true
      · have hci2 := hci
        simp only [List.getD_eq_getElem?_getD] at hci2
        have hstep : ClockReplacer.victimLoop (f + 1) r =
            ClockReplacer.victimLoop f (ClockReplacer.advance
              { r with clock := r.clock.set r.current_frame false }) := by
          simp [ClockReplacer.victimLoop, hri2, hci2]
        rw [hstep]
        refine ih (ClockReplacer.advance
          { r with clock := r.clock.set r.current_frame false }) f ?_ ?_ ?_ ?_ ?_ ?_
        · simpa [ClockReplacer.advance] using hr
        · simpa [ClockReplacer.advance] using hc
        · simp only [ClockReplacer.advance, List.length_set, hc]
          exact Nat.mod_lt _ hn
        · omega
        · simp only [ClockReplacer.advance, List.length_set, hc]
          rw [hshift]
          exact hres
        · omega
      · have hci2 := hci
        simp only [List.getD_eq_getElem?_getD] at hci2
        refine ⟨(r.current_frame, r.advance), ?_⟩
        simp [ClockReplacer.victimLoop, hri2, hci2]
    · have hri2 := hri
      simp only [List.getD_eq_getElem?_getD] at hri2
      have hstep : ClockReplacer.victimLoop (f + 1) r =
          ClockReplacer.victimLoop f r.advance := by
        simp [ClockReplacer.victimLoop, hri2]
      rw [hstep]
      refine ih r.advance f ?_ ?_ ?_ ?_ ?_ ?_
      · simpa [ClockReplacer.advance] using hr
      · simpa [ClockReplacer.advance] using hc
      · simp only [ClockReplacer.advance, hc]
        exact Nat.mod_lt _ hn
      · omega
      · simp only [ClockReplacer.advance, hc]
        rw [hshift]
        exact hres
      · omega

/-- C9: for the Clock replacer, whenever some resident bit is set the victim
loop returns a frame within at most `2 * pool_size` iterations (so `Victim`,
which runs the loop with exactly that fuel, succeeds), and when no resident
bit is set `Victim` returns `none` immediately without entering the loop. -/
theorem c9_clock_victim_terminates (r : ClockReplacer) (n : Nat)
    (hr : r.resident.length = n) (hc : r.clock.length = n)
    (hcur : r.current_frame < n) (hany : r.resident.any id = true) :
    (∃ res, ClockReplacer.victimLoop (2 * n) r = some res) ∧
    r.Victim = ClockReplacer.victimLoop (2 * n) r ∧
    (∀ r2 : ClockReplacer, r2.resident.any id = false → r2.Victim = none) := by
  have hex : ∃ j, j < n ∧ r.resident.getD j false = true := by
    rcases List.any_eq_true.mp hany with ⟨b, hb, hid⟩
    rcases List.mem_iff_getElem.mp hb with ⟨j, hjl, hjb⟩
    refine ⟨j, hr ▸ hjl, ?_⟩
    rw [List.getD_eq_getElem?_getD, List.getElem?_eq_getElem hjl, hjb]
    simpa using hid
  obtain ⟨j, hj, hjres⟩ := hex
  have hn : 0 < n := by omega
  have hd : (j + n - r.current_frame) % n < n := Nat.mod_lt _ hn
  have hkey : (r.current_frame + (j + n - r.current_frame) % n) % n = j := by
    rw [Nat.add_mod_mod]
    rw [show r.current_frame + (j + n - r.current_frame) = j + n by omega]
    rw [Nat.add_mod_right]
    exact Nat.mod_eq_of_lt hj
  refine ⟨?_, by simp [ClockReplacer.Victim, hany, hc],
    fun r2 h2 => by simp [ClockReplacer.Victim, h2]⟩
  by_cases hck : r.clock.getD j false = true
  · refine victimLoop_halts_resident n ((j + n - r.current_frame) % n) r (2 * n)
      hr hc hcur hd ?_ (by omega)
    rw [hkey]
    exact hjres
  · refine victimLoop_halts_unmarked n ((j + n - r.current_frame) % n) r (2 * n)
      hr hc hcur hd ?_ ?_ (by omega)
    · rw [hkey]
      exact hjres
    · rw [hkey]
      simpa using hck

/-- Witness for `c9_clock_victim_terminates`: the full 3-slot clock `cFull`. -/
theorem c9_clock_victim_terminates_witness :
    (cFull.resident.length = 3 ∧ cFull.clock.length = 3 ∧
     cFull.current_frame < 3 ∧ cFull.resident.any id = true) ∧
    (∃ res, ClockReplacer.victimLoop (2 * 3) cFull = some res) :=
  ⟨⟨by decide, by decide, by decide, by decide⟩,
   (c9_clock_victim_terminates cFull 3 (by decide) (by decide) (by decide)
      (by decide)).1⟩

/-- Helper: writing back the element already at a position is a no-op. -/
theorem list_set_getD_self {α : Type} (l : List α) (n : Nat) (d : α) :
    l.set n (l.getD n d) = l := by
  apply List.ext_getElem?
  intro i
  by_cases h : i = n
  · subst h
    by_cases hl : i < l.length
    · rw [List.getElem?_set_self (by omega), List.getD_eq_getElem?_getD,
        List.getElem?_eq_getElem hl]
      rfl
    · rw [List.getElem?_set]
      simp [hl]
      omega
  · rw [List.getElem?_set_ne (Ne.symm h)]

/-- Helper: a failed `NewPgImp` leaves the instance unchanged. -/
theorem newPg_none_fix (st : BufferPoolManagerInstance) :
    (st.newPg).1 = none → (st.newPg).2 = st := by
  unfold newPg
  cases hp : provisionNew st with
  | none => intro _; rfl
  | some v => obtain ⟨i, st2⟩ := v; simp

/-- Helper: step equation of the round-robin loop when the tried instance
fails (the instance vector is unchanged). -/
theorem parNewTry_cons_fail (insts : List BufferPoolManagerInstance)
    (start a : Nat) (rest : List Nat)
    (h : ((insts.getD ((start + a) % insts.length) default).newPg).1 = none) :
    ParallelBufferPoolManager.parNewTry insts start (a :: rest) =
      ParallelBufferPoolManager.parNewTry insts start rest := by
  conv_lhs => unfold ParallelBufferPoolManager.parNewTry
  dsimp only
  rw [h]
  dsimp only
  rw [newPg_none_fix _ h, list_set_getD_self]

/-- Helper: step equation of the round-robin loop when the tried instance
succeeds. -/
theorem parNewTry_cons_succeed (insts : List BufferPoolManagerInstance)
    (start a : Nat) (rest : List Nat) (fp : Nat × Int)
    (h : ((insts.getD ((start + a) % insts.length) default).newPg).1 = some fp) :
    ParallelBufferPoolManager.parNewTry insts start (a :: rest) =
      some ((start + a) % insts.length, fp.2,
        insts.set ((start + a) % insts.length)
          ((insts.getD ((start + a) % insts.length) default).newPg).2) := by
  conv_lhs => unfold ParallelBufferPoolManager.parNewTry
  dsimp only
  rw [h]

/-- Helper: the round-robin loop fails exactly when every tried offset
fails. -/
theorem parNewTry_none_iff (start : Nat) :
    ∀ (offs : List Nat) (insts : List BufferPoolManagerInstance),
      ParallelBufferPoolManager.parNewTry insts start offs = none ↔
      ∀ a ∈ offs,
        ((insts.getD ((start + a) % insts.length) default).newPg).1 = none := by
  intro offs
  induction offs with
  | nil => intro insts; simp [ParallelBufferPoolManager.parNewTry]
  | cons a rest ih =>
    intro insts
    constructor
    · intro h b hb
      cases hr : ((insts.getD ((start + a) % insts.length) default).newPg).1 with
      | some fp =>
        rw [parNewTry_cons_succeed insts start a rest fp hr] at h
        exact absurd h (by simp)
      | none =>
        rw [parNewTry_cons_fail insts start a rest hr] at h
        rcases List.mem_cons.mp hb with rfl | hbr
        · exact hr
        · exact (ih insts).mp h b hbr
    · intro h
      have ha := h a (by simp)
      rw [parNewTry_cons_fail insts start a rest ha]
      exact (ih insts).mpr (fun b hb => h b (by simp [hb]))

/-- Helper: a successful round-robin loop returns the first offset whose
instance succeeds, that instance's new page id, and the vector updated only
there. -/
theorem parNewTry_some_spec (start : Nat) :
    ∀ (offs : List Nat) (insts : List BufferPoolManagerInstance) (idx : Nat)
      (pid : Int) (insts2 : List BufferPoolManagerInstance),
      ParallelBufferPoolManager.parNewTry insts start offs =
          some (idx, pid, insts2) →
      ∃ k, k < offs.length ∧
        (∀ m, m < k →
          ((insts.getD ((start + offs.getD m 0) % insts.length)
            default).newPg).1 = none) ∧
        idx = (start + offs.getD k 0) % insts.length ∧
        (∃ f, ((insts.getD idx default).newPg).1 = some (f, pid)) ∧
        insts2 = insts.set idx ((insts.getD idx default).newPg).2 := by
  intro offs
  induction offs with
  | nil =>
    intro insts idx pid insts2 h
    exact absurd h (by simp [ParallelBufferPoolManager.parNewTry])
  | cons a rest ih =>
    intro insts idx pid insts2 h
    cases hr : ((insts.getD ((start + a) % insts.length) default).newPg).1 with
    | some fp =>
      rw [parNewTry_cons_succeed insts start a rest fp hr] at h
      simp only [Option.some.injEq, Prod.mk.injEq] at h
      obtain ⟨h1, h2, h3⟩ := h
      subst h1
      subst h2
      refine ⟨0, by simp, fun m hm => absurd hm (by omega), by simp,
        ⟨fp.1, by rw [hr]⟩, h3.symm⟩
    | none =>
      rw [parNewTry_cons_fail insts start a rest hr] at h
      obtain ⟨k, hk, hfail, hidx, hsucc, hset⟩ := ih insts idx pid insts2 h
      refine ⟨k + 1, by simpa using Nat.succ_lt_succ hk, ?_, ?_, hsucc, hset⟩
      · intro m hm
        cases m with
        | zero => simpa using hr
        | succ m2 => simpa using hfail m2 (by omega)
      · simpa using hidx

/-- Helper: every residue `j < N` is hit by some offset `i < N` of the
round-robin order `(start + i) % N`. -/
theorem exists_offset_mod (N start j : Nat) (hN : 0 < N) (hj : j < N) :
    ∃ i, i < N ∧ (start + i) % N = j := by
  refine ⟨(j + N - start % N) % N, Nat.mod_lt _ hN, ?_⟩
  have hs : start % N < N := Nat.mod_lt _ hN
  rw [Nat.add_mod_mod]
  rw [← Nat.mod_add_mod]
  rw [show start % N + (j + N - start % N) = j + N by omega]
  rw [Nat.add_mod_right]
  exact Nat.mod_eq_of_lt hj

/-- Helper: the `m`-th tried offset of the round-robin order is `m`. -/
theorem range_getD (n m : Nat) (h : m < n) : (List.range n).getD m 0 = m := by
  rw [List.getD_eq_getElem?_getD, List.getElem?_range h]
  rfl

/-- C8: the parallel pool routes `Fetch`, `Unpin`, `Flush` and `Delete` for
`page_id` to `instances[page_id mod N]`, updating only that instance; `New`
tries the instances in order `(start_index + i) mod N` for `i ∈ [0, N)`,
returns the page id of the first instance that succeeds while bumping
`start_index`, and returns `none` (leaving the pool unchanged) exactly when
every instance fails. -/
theorem c8_parallel_routing_and_round_robin (pbm : ParallelBufferPoolManager)
    (pid : Int) (hpid : 0 ≤ pid) (hN : 0 < pbm.bpInstances.length) :
    (pbm.getInstanceIdx pid = pid.toNat % pbm.bpInstances.length) ∧
    ((pbm.parFetchPg pid).1 =
        ((pbm.bpInstances.getD (pbm.getInstanceIdx pid) default).fetchPg pid).1 ∧
      (pbm.parFetchPg pid).2.bpInstances =
        pbm.bpInstances.set (pbm.getInstanceIdx pid)
          ((pbm.bpInstances.getD (pbm.getInstanceIdx pid) default).fetchPg pid).2) ∧
    (∀ d, (pbm.parUnpinPg pid d).1 =
        ((pbm.bpInstances.getD (pbm.getInstanceIdx pid) default).unpinPg pid d).1 ∧
      (pbm.parUnpinPg pid d).2.bpInstances =
        pbm.bpInstances.set (pbm.getInstanceIdx pid)
          ((pbm.bpInstances.getD (pbm.getInstanceIdx pid) default).unpinPg pid d).2) ∧
    ((pbm.parFlushPg pid).1 =
        ((pbm.bpInstances.getD (pbm.getInstanceIdx pid) default).flushPg pid).1 ∧
      (pbm.parFlushPg pid).2.bpInstances =
        pbm.bpInstances.set (pbm.getInstanceIdx pid)
          ((pbm.bpInstances.getD (pbm.getInstanceIdx pid) default).flushPg pid).2) ∧
    ((pbm.parDeletePg pid).1 =
        ((pbm.bpInstances.getD (pbm.getInstanceIdx pid) default).deletePg pid).1 ∧
      (pbm.parDeletePg pid).2.bpInstances =
        pbm.bpInstances.set (pbm.getInstanceIdx pid)
          ((pbm.bpInstances.getD (pbm.getInstanceIdx pid) default).deletePg pid).2) ∧
    ((pbm.parNewPg).1 = none ↔
      ∀ j, j < pbm.bpInstances.length →
        ((pbm.bpInstances.getD j default).newPg).1 = none) ∧
    ((pbm.parNewPg).1 = none → (pbm.parNewPg).2 = pbm) ∧
    (∀ npid, (pbm.parNewPg).1 = some npid →
      (pbm.parNewPg).2.starting_index = pbm.starting_index + 1 ∧
      ∃ k, k < pbm.bpInstances.length ∧
        (∀ m, m < k → ((pbm.bpInstances.getD
            ((pbm.starting_index + m) % pbm.bpInstances.length)
            default).newPg).1 = none) ∧
        ∃ f, ((pbm.bpInstances.getD
            ((pbm.starting_index + k) % pbm.bpInstances.length)
            default).newPg).1 = some (f, npid)) := by
  refine ⟨?_, ⟨rfl, rfl⟩, fun d => ⟨rfl, rfl⟩, ⟨rfl, rfl⟩, ⟨rfl, rfl⟩, ?_, ?_, ?_⟩
  · unfold ParallelBufferPoolManager.getInstanceIdx
    obtain ⟨m, rfl⟩ := Int.eq_ofNat_of_zero_le hpid
    norm_cast
  · constructor
    · intro h j hj
      have htry : ParallelBufferPoolManager.parNewTry pbm.bpInstances
          pbm.starting_index (List.range pbm.bpInstances.length) = none := by
        unfold ParallelBufferPoolManager.parNewPg at h
        cases htry2 : ParallelBufferPoolManager.parNewTry pbm.bpInstances
            pbm.starting_index (List.range pbm.bpInstances.length) with
        | none => rfl
        | some v =>
          obtain ⟨idx, npid2, insts2⟩ := v
          rw [htry2] at h
          exact absurd h (by simp)
      obtain ⟨i, hi, hij⟩ := exists_offset_mod pbm.bpInstances.length
        pbm.starting_index j hN hj
      have := (parNewTry_none_iff pbm.starting_index
        (List.range pbm.bpInstances.length) pbm.bpInstances).mp htry i
        (List.mem_range.mpr hi)
      rw [hij] at this
      exact this
    · intro h
      have htry : ParallelBufferPoolManager.parNewTry pbm.bpInstances
          pbm.starting_index (List.range pbm.bpInstances.length) = none := by
        refine (parNewTry_none_iff pbm.starting_index
          (List.range pbm.bpInstances.length) pbm.bpInstances).mpr ?_
        intro a ha
        exact h _ (Nat.mod_lt _ hN)
      unfold ParallelBufferPoolManager.parNewPg
      rw [htry]
  · intro h
    unfold ParallelBufferPoolManager.parNewPg at h ⊢
    cases htry : ParallelBufferPoolManager.parNewTry pbm.bpInstances
        pbm.starting_index (List.range pbm.bpInstances.length) with
    | none => rfl
    | some v =>
      obtain ⟨idx, npid2, insts2⟩ := v
      rw [htry] at h
      exact absurd h (by simp)
  · intro npid h
    unfold ParallelBufferPoolManager.parNewPg at h ⊢
    cases htry : ParallelBufferPoolManager.parNewTry pbm.bpInstances
        pbm.starting_index (List.range pbm.bpInstances.length) with
    | none =>
      rw [htry] at h
      exact absurd h (by simp)
    | some v =>
      obtain ⟨idx, npid2, insts2⟩ := v
      rw [htry] at h
      have hnp : npid2 = npid := by simpa using h
      subst hnp
      refine ⟨rfl, ?_⟩
      obtain ⟨k, hk, hfail, hidx, hsucc, -⟩ :=
        parNewTry_some_spec pbm.starting_index
          (List.range pbm.bpInstances.length) pbm.bpInstances idx npid2 insts2 htry
      rw [List.length_range] at hk
      refine ⟨k, hk, ?_, ?_⟩
      · intro m hm
        have hthis := hfail m hm
        rw [range_getD _ _ (by omega)] at hthis
        exact hthis
      · obtain ⟨f, hf⟩ := hsucc
        refine ⟨f, ?_⟩
        rw [range_getD _ _ hk] at hidx
        rw [← hidx]
        exact hf

/-- Witness for `c8_parallel_routing_and_round_robin`: the two-instance pool
`pbmTwo` with page id 3. -/
theorem c8_parallel_routing_and_round_robin_witness :
    ((0 : Int) ≤ 3 ∧ 0 < pbmTwo.bpInstances.length) ∧
    pbmTwo.getInstanceIdx 3 = (3 : Int).toNat % pbmTwo.bpInstances.length :=
  ⟨⟨by decide, by decide⟩,
   (c8_parallel_routing_and_round_robin pbmTwo 3 (by decide) (by decide)).1⟩

end DbBufferPool
